import Mathlib

/-!
Shallow embedding of the chat-widget matcher in `script_bot.js`:
keyword extraction (lowercase, `\b(\w+)\b` tokenization, stop-word
filtering, truncation to 10), overlap scoring of retrieved candidate
records, best-answer selection, the DOM transcript operations
(`addMessage`, `showTypingIndicator`, `hideTypingIndicator`) and the
conversation-turn driver `getBotResponse`.
-/

set_option autoImplicit false

namespace ScriptBot

/-- The default fallback answer (`defaultResponse` in `getBotResponse`). -/
def defaultResponse : String :=
  "I\x27m sorry, I don\x27t have the answer to that. Please try asking in a different way or visit the official IST website for more information."

/-- The message rendered when the Firestore query throws (catch branch). -/
def troubleResponse : String :=
  "Sorry, I\x27m having trouble connecting to my knowledge base right now."

/-- The stop-word set built in `getBotResponse` (`new Set([...])`). -/
def stopWords : List String :=
  ["i","me","my","myself","we","our","ours","ourselves","you","your","yours","yourself","yourselves","he","him","his","himself","she","her","hers","herself","it","its","itself","they","them","their","theirs","themselves","what","which","who","whom","this","that","these","those","am","is","are","was","were","be","been","being","have","has","had","having","do","does","did","doing","a","an","the","and","but","if","or","because","as","until","while","of","at","by","for","with","about","against","between","into","through","during","before","after","above","below","to","from","up","down","in","out","on","off","over","under","again","further","then","once","here","there","when","where","why","how","all","any","both","each","few","more","most","other","some","such","no","nor","not","only","own","same","so","than","too","very","s","t","can","will","just","don","should","now"]

/-- JavaScript `\w`: ASCII letters, digits, underscore. -/
def isWordChar (c : Char) : Bool :=
  c.isAlpha || c.isDigit || c = '_'

/-- Emit the current (reversed) run of word characters as a token, if any. -/
def flushTok (cur : List Char) : List String :=
  if cur.isEmpty then [] else [String.mk cur.reverse]

/-- Accumulate maximal runs of word characters; `cur` is the current run,
reversed. -/
def tokenizeAux : List Char → List Char → List String
  | cur, [] => flushTok cur
  | cur, c :: rest =>
      if isWordChar c then tokenizeAux (c :: cur) rest
      else flushTok cur ++ tokenizeAux [] rest

/-- `text.match(/\b(\w+)\b/g) || []`: the maximal runs of word characters,
in order of occurrence. -/
def tokenizeChars (l : List Char) : List String :=
  tokenizeAux [] l

/-- The word tokens of the lowercased text (`userText.toLowerCase().match(...)`). -/
def allWords (userText : String) : List String :=
  tokenizeChars (userText.data.map Char.toLower)

/-- `allWords.filter(word => !stopWords.has(word))`. -/
def userKeywords (userText : String) : List String :=
  (allWords userText).filter (fun word => decide (word ∉ stopWords))

/-- The full extraction pipeline of `getBotResponse` lines 82-84:
lowercase, tokenize on `\b(\w+)\b`, drop stop words, `slice(0, 10)`. -/
def extract (userText : String) : List String :=
  (userKeywords userText).take 10

/-- A stored question/answer document from the `qna` collection. -/
structure QARecord where
  keywords : List String
  answer : String
deriving DecidableEq, Repr

/-- The per-document overlap score: iterate over `docData.keywords`,
incrementing once for each element contained in `limitedKeywords`
(`limitedKeywords.includes(keyword)`). -/
def score (limitedKeywords : List String) (doc : QARecord) : Nat :=
  doc.keywords.foldl (fun acc keyword => if keyword ∈ limitedKeywords then acc + 1 else acc) 0

/-- The running best match `{ score, answer }`. -/
structure BestMatch where
  score : Nat
  answer : String
deriving DecidableEq, Repr

/-- One step of the scoring loop: replace the running best exactly when the
current document scores strictly greater. -/
def bestStep (limitedKeywords : List String) (best : BestMatch) (doc : QARecord) : BestMatch :=
  if best.score < score limitedKeywords doc then
    { score := score limitedKeywords doc, answer := doc.answer }
  else best

/-- The scoring loop of lines 107-123: fold over the retrieved documents
starting from `{ score: 0, answer: defaultResponse }`. -/
def selectBest (limitedKeywords : List String) (cands : List QARecord) : BestMatch :=
  cands.foldl (bestStep limitedKeywords) { score := 0, answer := defaultResponse }

/-- The answer rendered on the success path: the default when the snapshot
is empty, otherwise the best match answer. -/
def selectBestAnswer (limitedKeywords : List String) (cands : List QARecord) : String :=
  if cands.isEmpty then defaultResponse
  else (selectBest limitedKeywords cands).answer

/-- The greatest overlap score among the retrieved candidates (0 when none). -/
def maxOverlap (limitedKeywords : List String) (cands : List QARecord) : Nat :=
  (cands.map (score limitedKeywords)).foldr max 0

/-- A child of the `chat-messages` container: CSS classes, optional DOM id,
text content. -/
structure Node where
  classes : List String
  id : Option String
  text : String
deriving DecidableEq, Repr

/-- `addMessage`: create a div with classes `message`, `className`, set its
text, append it to the container. -/
def addMessage (text className : String) (nodes : List Node) : List Node :=
  nodes ++ [{ classes := ["message", className], id := none, text := text }]

/-- `showTypingIndicator`: create a div with id `typing-indicator` and append
it to the container. -/
def showTypingIndicator (nodes : List Node) : List Node :=
  nodes ++ [{ classes := ["message", "bot-message", "typing-indicator"],
              id := some "typing-indicator", text := "" }]

/-- `document.getElementById` returns the first element with the id, and
`.remove()` removes it; absent id means no change. -/
def removeFirstIndicator : List Node → List Node
  | [] => []
  | n :: rest =>
      if n.id = some "typing-indicator" then rest else n :: removeFirstIndicator rest

/-- `hideTypingIndicator`: remove the first element with id `typing-indicator`
if present, otherwise do nothing. -/
def hideTypingIndicator (nodes : List Node) : List Node :=
  removeFirstIndicator nodes

/-- Observable state of a conversation turn: transcript children, the two
`disabled` flags, and how many Firestore queries were issued. -/
structure TurnState where
  nodes : List Node
  chatInputDisabled : Bool
  sendButtonDisabled : Bool
  queryCount : Nat
deriving DecidableEq, Repr

/-- `getBotResponse(userText)`, with the Firestore query abstracted as
`store : List String → Except Unit (List QARecord)` (error = throw in the
try block). Mirrors the source: early return on an empty keyword list;
otherwise one query; catch renders `troubleResponse`; the finally block
re-enables both input controls on every path. -/
def getBotResponse (userText : String)
    (store : List String → Except Unit (List QARecord))
    (s : TurnState) : TurnState :=
  let limitedKeywords := extract userText
  if limitedKeywords.length = 0 then
    { s with
      nodes := addMessage defaultResponse "bot-message" (hideTypingIndicator s.nodes),
      chatInputDisabled := false,
      sendButtonDisabled := false }
  else
    match store limitedKeywords with
    | Except.error _ =>
        { s with
          nodes := addMessage troubleResponse "bot-message" (hideTypingIndicator s.nodes),
          chatInputDisabled := false,
          sendButtonDisabled := false,
          queryCount := s.queryCount + 1 }
    | Except.ok cands =>
        { s with
          nodes := addMessage (selectBestAnswer limitedKeywords cands) "bot-message"
                     (hideTypingIndicator s.nodes),
          chatInputDisabled := false,
          sendButtonDisabled := false,
          queryCount := s.queryCount + 1 }

/-! ### Helper lemmas about the scoring fold -/

/-- The counting loop, started from any accumulator, adds the number of
candidate keywords that are members of the query list. -/
lemma foldl_count (kws : List String) (l : List String) (n : Nat) :
    l.foldl (fun acc keyword => if keyword ∈ kws then acc + 1 else acc) n
      = n + l.countP (fun keyword => decide (keyword ∈ kws)) := by
  induction l generalizing n with
  | nil => simp
  | cons k rest ih =>
    by_cases hk : k ∈ kws
    · simp [List.foldl_cons, List.countP_cons, hk, ih]
      omega
    · simp [List.foldl_cons, List.countP_cons, hk, ih]

/-- `score` counts the candidate keywords that are members of the query. -/
lemma score_eq_countP (kws : List String) (doc : QARecord) :
    score kws doc = doc.keywords.countP (fun keyword => decide (keyword ∈ kws)) := by
  simpa using foldl_count kws doc.keywords 0

lemma maxOverlap_nil (kws : List String) : maxOverlap kws [] = 0 := rfl

lemma maxOverlap_cons (kws : List String) (d : QARecord) (rest : List QARecord) :
    maxOverlap kws (d :: rest) = max (score kws d) (maxOverlap kws rest) := rfl

/-- Every retrieved candidate scores at most `maxOverlap`. -/
lemma score_le_maxOverlap (kws : List String) {cands : List QARecord} {r : QARecord}
    (hr : r ∈ cands) : score kws r ≤ maxOverlap kws cands := by
  induction cands with
  | nil => cases hr
  | cons d rest ih =>
    rw [maxOverlap_cons]
    rcases List.mem_cons.mp hr with h | h
    · exact h ▸ Nat.le_max_left _ _
    · exact Nat.le_trans (ih h) (Nat.le_max_right _ _)

/-- If every candidate scores strictly below a positive bound, so does the
maximum overlap. -/
lemma maxOverlap_lt (kws : List String) {cands : List QARecord} {k : Nat}
    (hk : 0 < k) (h : ∀ r ∈ cands, score kws r < k) : maxOverlap kws cands < k := by
  induction cands with
  | nil => exact hk
  | cons d rest ih =>
    rw [maxOverlap_cons]
    exact Nat.max_lt.mpr ⟨h d (List.mem_cons_self d rest), ih fun r hr => h r (List.mem_cons_of_mem d hr)⟩

/-- One scoring step leaves the running score at the max of the old score and
the document score. -/
lemma bestStep_score (kws : List String) (b : BestMatch) (doc : QARecord) :
    (bestStep kws b doc).score = max b.score (score kws doc) := by
  unfold bestStep
  split
  · exact (Nat.max_eq_right (Nat.le_of_lt (by assumption))).symm
  · exact (Nat.max_eq_left (Nat.le_of_not_lt (by assumption))).symm

/-- The final score of the scoring loop is the max of the initial score and
all document scores. -/
lemma foldl_bestStep_score (kws : List String) (cands : List QARecord) (b : BestMatch) :
    (cands.foldl (bestStep kws) b).score = max b.score (maxOverlap kws cands) := by
  induction cands generalizing b with
  | nil => simp [maxOverlap_nil]
  | cons d rest ih =>
    rw [List.foldl_cons, ih, bestStep_score, maxOverlap_cons, Nat.max_assoc]

/-- The scoring loop returns either the initial best or the score/answer pair
of one of the candidates. -/
lemma foldl_bestStep_mem (kws : List String) (cands : List QARecord) (b : BestMatch) :
    cands.foldl (bestStep kws) b = b ∨
      ∃ doc ∈ cands, cands.foldl (bestStep kws) b
        = { score := score kws doc, answer := doc.answer } := by
  induction cands generalizing b with
  | nil => exact Or.inl rfl
  | cons d rest ih =>
    rw [List.foldl_cons]
    rcases ih (bestStep kws b d) with h | ⟨doc, hdoc, h⟩
    · rw [h]
      unfold bestStep
      split
      · exact Or.inr ⟨d, List.mem_cons_self d rest, rfl⟩
      · exact Or.inl rfl
    · exact Or.inr ⟨doc, List.mem_cons_of_mem d hdoc, h⟩

/-- When no candidate beats the running score, the loop keeps the running
best unchanged (this is the strictly-greater tie-break). -/
lemma foldl_bestStep_const (kws : List String) {cands : List QARecord} {b : BestMatch}
    (h : ∀ doc ∈ cands, score kws doc ≤ b.score) :
    cands.foldl (bestStep kws) b = b := by
  induction cands with
  | nil => rfl
  | cons d rest ih =>
    rw [List.foldl_cons]
    have hd : bestStep kws b d = b := by
      unfold bestStep
      rw [if_neg (Nat.not_lt.mpr (h d (List.mem_cons_self d rest)))]
    rw [hd]
    exact ih fun doc hdoc => h doc (List.mem_cons_of_mem d hdoc)

/-! ### Helper lemmas about tokenization and the transcript -/

/-- A character list with no word characters yields no tokens. -/
lemma tokenizeAux_nil_of_no_word {l : List Char}
    (h : ∀ c ∈ l, isWordChar c = false) : tokenizeAux [] l = [] := by
  induction l with
  | nil => rfl
  | cons c rest ih =>
    have hc : isWordChar c = false := h c (List.mem_cons_self c rest)
    simp only [tokenizeAux, hc, Bool.false_eq_true, if_false, flushTok,
      List.isEmpty_nil, if_true, List.nil_append]
    exact ih fun x hx => h x (List.mem_cons_of_mem c hx)

/-- Removing the first indicator is a no-op when no node carries the
indicator id. -/
lemma removeFirstIndicator_eq_self {nodes : List Node}
    (h : ∀ n ∈ nodes, n.id ≠ some "typing-indicator") :
    removeFirstIndicator nodes = nodes := by
  induction nodes with
  | nil => rfl
  | cons n rest ih =>
    unfold removeFirstIndicator
    rw [if_neg (h n (List.mem_cons_self n rest))]
    rw [ih fun x hx => h x (List.mem_cons_of_mem n hx)]

/-! ### Claim theorems -/

/-- C1: the selection logic returns the answer of a candidate whose overlap
score equals the maximum overlap count across all retrieved candidates, and
returns the default sentinel when no candidates were retrieved or no
candidate has positive overlap. -/
theorem C1_selection_max_or_default (kws : List String) (cands : List QARecord) :
    ((cands = [] ∨ ∀ r ∈ cands, score kws r = 0) →
      selectBestAnswer kws cands = defaultResponse) ∧
    ((∃ r ∈ cands, 0 < score kws r) →
      ∃ r ∈ cands, score kws r = maxOverlap kws cands ∧
        selectBestAnswer kws cands = r.answer) := by
  have hsb : selectBest kws cands
      = cands.foldl (bestStep kws) { score := 0, answer := defaultResponse } := rfl
  constructor
  · rintro (rfl | h)
    · rfl
    · unfold selectBestAnswer
      split
      · rfl
      · rw [hsb, foldl_bestStep_const kws fun doc hdoc => Nat.le_of_eq (h doc hdoc)]
  · rintro ⟨r0, hr0, hpos⟩
    have hne : cands ≠ [] := by rintro rfl; cases hr0
    have hM : 0 < maxOverlap kws cands :=
      Nat.lt_of_lt_of_le hpos (score_le_maxOverlap kws hr0)
    have hscore : (selectBest kws cands).score = maxOverlap kws cands := by
      rw [hsb, foldl_bestStep_score]
      exact Nat.max_eq_right (Nat.zero_le _)
    rcases foldl_bestStep_mem kws cands { score := 0, answer := defaultResponse }
        with heq | ⟨doc, hdoc, heq⟩
    · rw [← hsb] at heq
      rw [heq] at hscore
      have h0 : (0 : Nat) = maxOverlap kws cands := hscore
      omega
    · rw [← hsb] at heq
      refine ⟨doc, hdoc, ?_, ?_⟩
      · rw [← hscore, heq]
      · unfold selectBestAnswer
        rw [if_neg (by simp [List.isEmpty_iff, hne]), heq]

/-- C3: ties are broken by strictly-greater comparison only — the first
candidate attaining the maximal score is retained and later candidates with
equal score never replace it. -/
theorem C3_first_wins_tie_break (kws : List String) (pre post : List QARecord) (c : QARecord)
    (h1 : ∀ r ∈ pre, score kws r < score kws c)
    (h2 : ∀ r ∈ post, score kws r ≤ score kws c)
    (h3 : 0 < score kws c) :
    selectBestAnswer kws (pre ++ c :: post) = c.answer := by
  have hne : (pre ++ c :: post).isEmpty = false := by cases pre <;> rfl
  have hb1 : (pre.foldl (bestStep kws) { score := 0, answer := defaultResponse }).score
      < score kws c := by
    rw [foldl_bestStep_score]
    have : maxOverlap kws pre < score kws c := maxOverlap_lt kws h3 h1
    simpa using this
  have hstep : bestStep kws (pre.foldl (bestStep kws) { score := 0, answer := defaultResponse }) c
      = { score := score kws c, answer := c.answer } := by
    simp only [bestStep]
    rw [if_pos hb1]
  unfold selectBestAnswer
  rw [if_neg (by simp [hne])]
  unfold selectBest
  rw [List.foldl_append, List.foldl_cons, hstep,
    foldl_bestStep_const kws fun r hr => h2 r hr]

/-- C4: duplicate keywords in the query list do not inflate a candidate's
score — the score is invariant under deduplicating the query, and the spec's
example `["a","a","b"]` against keywords `["a","b"]` scores 2, not 3. -/
theorem C4_query_duplicates_no_inflation (doc : QARecord) (kws : List String) (ans : String) :
    score kws doc = score kws.dedup doc ∧
    score ["a", "a", "b"] (QARecord.mk ["a", "b"] ans) = 2 := by
  constructor
  · rw [score_eq_countP, score_eq_countP]
    have h : (fun keyword => decide (keyword ∈ kws.dedup))
        = fun keyword => decide (keyword ∈ kws) :=
      funext fun k => decide_eq_decide.mpr List.mem_dedup
    rw [h]
  · rfl

/-- C8: a candidate whose overlap score is 0 never replaces the initial
default best match, so when all candidates score 0 the default message is
returned. -/
theorem C8_zero_score_keeps_default (kws : List String) (cands : List QARecord)
    (h : ∀ r ∈ cands, score kws r = 0) :
    selectBest kws cands = { score := 0, answer := defaultResponse } ∧
    selectBestAnswer kws cands = defaultResponse := by
  have hsel : selectBest kws cands = { score := 0, answer := defaultResponse } :=
    foldl_bestStep_const kws fun doc hdoc => Nat.le_of_eq (h doc hdoc)
  refine ⟨hsel, ?_⟩
  unfold selectBestAnswer
  split
  · rfl
  · rw [hsel]

/-- C10: the score iterates over the candidate's keyword list, incrementing
once per element found in the query, so duplicate candidate keywords each
count (`["a","a"]` scores 2 against `["a"]`); the score equals the
set-intersection size when the candidate keyword list has no duplicates. -/
theorem C10_score_counts_occurrences (doc : QARecord) (kws : List String)
    (h : doc.keywords.Nodup) :
    score kws doc = doc.keywords.countP (fun keyword => decide (keyword ∈ kws)) ∧
    score ["a"] (QARecord.mk ["a", "a"] "X") = 2 ∧
    score kws doc = (doc.keywords.toFinset ∩ kws.toFinset).card := by
  refine ⟨score_eq_countP kws doc, rfl, ?_⟩
  rw [score_eq_countP, List.countP_eq_length_filter,
    ← List.toFinset_card_of_nodup (h.filter _), List.toFinset_filter]
  have hfc : Finset.filter (fun x => decide (x ∈ kws) = true) doc.keywords.toFinset
      = Finset.filter (fun x => x ∈ kws.toFinset) doc.keywords.toFinset :=
    Finset.filter_congr fun x _ => by simp [List.mem_toFinset]
  rw [hfc, Finset.filter_mem_eq_inter]

/-- C2: extraction returns at most 10 tokens, none of them stop words, and
the result is the prefix of the surviving tokens in order of occurrence. -/
theorem C2_extract_bounded_and_filtered (text : String) :
    (extract text).length ≤ 10 ∧
    (∀ w ∈ extract text, w ∉ stopWords) ∧
    (∃ rest, userKeywords text = extract text ++ rest) := by
  refine ⟨?_, ?_, ⟨(userKeywords text).drop 10, (List.take_append_drop 10 _).symm⟩⟩
  · rw [extract, List.length_take]
    exact min_le_left _ _
  · intro w hw
    have hw' : w ∈ userKeywords text := List.take_subset 10 _ hw
    exact of_decide_eq_true (List.mem_filter.mp hw').2

/-- C5: when the extracted keyword list is empty the default message is
rendered immediately, no store query is issued (the result is independent of
the store and the query count is unchanged), and input is re-enabled. -/
theorem C5_empty_keywords_no_query (text : String)
    (store store2 : List String → Except Unit (List QARecord)) (s : TurnState)
    (h : extract text = []) :
    getBotResponse text store s = getBotResponse text store2 s ∧
    (getBotResponse text store s).nodes
      = addMessage defaultResponse "bot-message" (hideTypingIndicator s.nodes) ∧
    (getBotResponse text store s).queryCount = s.queryCount ∧
    (getBotResponse text store s).chatInputDisabled = false ∧
    (getBotResponse text store s).sendButtonDisabled = false := by
  simp [getBotResponse, h]

/-- C6: input consisting entirely of stop words, or containing no word
characters at all, extracts to the empty keyword list. -/
theorem C6_stopwords_or_punct_extract_empty (text : String)
    (h : (∀ w ∈ allWords text, w ∈ stopWords) ∨
      (∀ c ∈ text.data, isWordChar c.toLower = false)) :
    extract text = [] := by
  rcases h with h | h
  · have hf : userKeywords text = [] := by
      rw [userKeywords, List.filter_eq_nil_iff]
      exact fun a ha hd => (of_decide_eq_true hd) (h a ha)
    rw [extract, hf]
    rfl
  · have ht : allWords text = [] := by
      rw [allWords, tokenizeChars]
      apply tokenizeAux_nil_of_no_word
      intro c hc
      rcases List.mem_map.mp hc with ⟨c0, hc0, rfl⟩
      exact h c0 hc0
    rw [extract, userKeywords, ht]
    rfl

/-- C7: the input controls end re-enabled on every exit path of a turn, and
on retrieval failure the fixed trouble message is rendered and exactly one
query was issued (no retry). -/
theorem C7_input_reenabled_every_path (text : String)
    (store : List String → Except Unit (List QARecord)) (s : TurnState) :
    (getBotResponse text store s).chatInputDisabled = false ∧
    (getBotResponse text store s).sendButtonDisabled = false ∧
    (extract text ≠ [] → store (extract text) = Except.error () →
      (getBotResponse text store s).nodes
        = addMessage troubleResponse "bot-message" (hideTypingIndicator s.nodes) ∧
      (getBotResponse text store s).queryCount = s.queryCount + 1) := by
  by_cases h : (extract text).length = 0
  · have hnil : extract text = [] := List.length_eq_zero.mp h
    refine ⟨?_, ?_, fun hne _ => absurd hnil hne⟩ <;> simp [getBotResponse, h]
  · cases hS : store (extract text) with
    | error e => cases e; simp [getBotResponse, h, hS]
    | ok cands => simp [getBotResponse, h, hS]

/-- C9 counterexample: `showTypingIndicator` is not idempotent — applied
twice to the empty transcript it appends two indicator nodes, not one. -/
theorem C9_counterexample_show_not_idempotent :
    showTypingIndicator (showTypingIndicator []) ≠ showTypingIndicator [] := by
  decide

/-- C9 (amended): `hideTypingIndicator` is a no-op on any transcript with no
indicator node, but `showTypingIndicator` is not idempotent — each call
appends a fresh indicator node, so showing twice differs from showing once. -/
theorem C9_hide_noop_show_not_idempotent (nodes : List Node)
    (h : ∀ n ∈ nodes, n.id = some "typing-indicator" → False) :
    hideTypingIndicator nodes = nodes ∧
    showTypingIndicator (showTypingIndicator nodes) ≠ showTypingIndicator nodes := by
  refine ⟨removeFirstIndicator_eq_self h, fun heq => ?_⟩
  have hlen := congrArg List.length heq
  simp only [showTypingIndicator, List.length_append, List.length_cons,
    List.length_nil] at hlen
  omega

/-! ### Witnesses -/

/-- C1 witness at a concrete positive-overlap input. -/
theorem C1_witness :
    (∃ r ∈ [QARecord.mk ["a"] "X"], 0 < score ["a"] r) ∧
    (∃ r ∈ [QARecord.mk ["a"] "X"],
      score ["a"] r = maxOverlap ["a"] [QARecord.mk ["a"] "X"] ∧
      selectBestAnswer ["a"] [QARecord.mk ["a"] "X"] = r.answer) :=
  ⟨by decide, (C1_selection_max_or_default ["a"] [QARecord.mk ["a"] "X"]).2 (by decide)⟩

/-- C2 witness at a concrete input. -/
theorem C2_witness :
    (("hello" : String) ∈ extract "hello world" ∧ ("hello" : String) ∉ stopWords) ∧
    (extract "hello world").length ≤ 10 :=
  ⟨⟨by decide, (C2_extract_bounded_and_filtered "hello world").2.1 "hello" (by decide)⟩,
    (C2_extract_bounded_and_filtered "hello world").1⟩

/-- C3 witness: the spec's two-candidate tie example, both scoring 1. -/
theorem C3_witness :
    ((∀ r ∈ ([] : List QARecord), score ["a"] r < score ["a"] (QARecord.mk ["a"] "X")) ∧
      (∀ r ∈ [QARecord.mk ["a"] "Y"], score ["a"] r ≤ score ["a"] (QARecord.mk ["a"] "X")) ∧
      0 < score ["a"] (QARecord.mk ["a"] "X")) ∧
    selectBestAnswer ["a"] ([] ++ QARecord.mk ["a"] "X" :: [QARecord.mk ["a"] "Y"]) = "X" :=
  ⟨⟨by decide, by decide, by decide⟩,
    C3_first_wins_tie_break ["a"] [] [QARecord.mk ["a"] "Y"] (QARecord.mk ["a"] "X")
      (by decide) (by decide) (by decide)⟩

/-- C5 witness: a pure stop-word input issues no query and re-enables input. -/
theorem C5_witness :
    extract "the" = [] ∧
    (getBotResponse "the" (fun _ => Except.ok []) (TurnState.mk [] true true 0)).queryCount = 0 ∧
    (getBotResponse "the" (fun _ => Except.ok []) (TurnState.mk [] true true 0)).chatInputDisabled
      = false :=
  ⟨by decide,
    (C5_empty_keywords_no_query "the" (fun _ => Except.ok []) (fun _ => Except.error ())
      (TurnState.mk [] true true 0) (by decide)).2.2.1,
    (C5_empty_keywords_no_query "the" (fun _ => Except.ok []) (fun _ => Except.error ())
      (TurnState.mk [] true true 0) (by decide)).2.2.2.1⟩

/-- C6 witness: an all-stop-word sentence extracts to the empty list. -/
theorem C6_witness :
    ((∀ w ∈ allWords "is it the", w ∈ stopWords) ∨
      (∀ c ∈ ("is it the" : String).data, isWordChar c.toLower = false)) ∧
    extract "is it the" = [] :=
  ⟨Or.inl (by decide), C6_stopwords_or_punct_extract_empty "is it the" (Or.inl (by decide))⟩

/-- C7 witness: a failing store at a concrete input still re-enables input,
renders the trouble message, and issues exactly one query. -/
theorem C7_witness :
    (extract "library" ≠ [] ∧
      (fun _ => (Except.error () : Except Unit (List QARecord))) (extract "library")
        = Except.error ()) ∧
    ((getBotResponse "library" (fun _ => Except.error ())
        (TurnState.mk [] true true 0)).chatInputDisabled = false ∧
      (getBotResponse "library" (fun _ => Except.error ())
        (TurnState.mk [] true true 0)).queryCount = 0 + 1) :=
  ⟨⟨by decide, rfl⟩,
    (C7_input_reenabled_every_path "library" (fun _ => Except.error ())
      (TurnState.mk [] true true 0)).1,
    ((C7_input_reenabled_every_path "library" (fun _ => Except.error ())
      (TurnState.mk [] true true 0)).2.2 (by decide) rfl).2⟩

/-- C8 witness: a single zero-overlap candidate yields the default message. -/
theorem C8_witness :
    (∀ r ∈ [QARecord.mk ["b"] "Y"], score ["x"] r = 0) ∧
    selectBestAnswer ["x"] [QARecord.mk ["b"] "Y"] = defaultResponse :=
  ⟨by decide, (C8_zero_score_keeps_default ["x"] [QARecord.mk ["b"] "Y"] (by decide)).2⟩

/-- C9 witness: the empty transcript has no indicator node. -/
theorem C9_witness :
    (∀ n ∈ ([] : List Node), n.id = some "typing-indicator" → False) ∧
    (hideTypingIndicator [] = [] ∧
      showTypingIndicator (showTypingIndicator []) ≠ showTypingIndicator []) :=
  ⟨by simp, C9_hide_noop_show_not_idempotent [] (by simp)⟩

/-- C10 witness: a duplicate-free candidate keyword list, where the score is
the intersection cardinality. -/
theorem C10_witness :
    List.Nodup ["a", "b"] ∧
    score ["a", "a", "b"] (QARecord.mk ["a", "b"] "X")
      = ((["a", "b"] : List String).toFinset ∩ (["a", "a", "b"] : List String).toFinset).card :=
  ⟨by decide,
    (C10_score_counts_occurrences (QARecord.mk ["a", "b"] "X") ["a", "a", "b"] (by decide)).2.2⟩

end ScriptBot
